import Mathlib

/-!
Verification of the Helios-Tracker derived-metrics pipeline.

The TypeScript sources are shallowly embedded: JavaScript numbers are
modelled as rationals (`ℚ`), except where `Math.exp` forces real
arithmetic (`ℝ`).  JavaScript `Map`s are modelled as association lists in
insertion order, and the JavaScript `Infinity` sentinel used by
`buildDailyHRSummary` is modelled as `Option ℚ` with `none` standing for
`Infinity`.
-/

set_option maxHeartbeats 1000000

namespace Helios

/-- A single heart-rate sample (`HeartRateAuto` in `data-types.ts`): a
`"YYYY-MM-DD"` date, an `"HH:mm"` time, and the measured heart rate. -/
structure HeartRateRecord where
  date : String
  time : String
  heartRate : ℚ
deriving DecidableEq

/-- JavaScript `Math.round`: round half toward positive infinity. -/
def jsRound (x : ℚ) : ℤ := ⌊x + 1/2⌋

/-- Real-valued variant of `jsRound`, used where `Math.exp` appears. -/
noncomputable def jsRoundR (x : ℝ) : ℤ := ⌊x + 1/2⌋

/-! ### `data-transforms.ts`: heart-rate zones -/

/-- The four zone counters accumulated by the loop in `computeHRZones`. -/
structure HRCounts where
  rest : ℕ
  fatBurn : ℕ
  cardio : ℕ
  peak : ℕ
deriving DecidableEq

/-- One iteration of the classification loop of `computeHRZones`:
`pct = rec.heartRate / maxHR`; peak if `pct >= 0.85`, cardio if
`pct >= 0.7`, fatBurn if `pct >= 0.5`, otherwise rest. -/
def zoneStep (maxHR : ℚ) (c : HRCounts) (r : HeartRateRecord) : HRCounts :=
  let pct := r.heartRate / maxHR
  if pct ≥ 0.85 then { c with peak := c.peak + 1 }
  else if pct ≥ 0.7 then { c with cardio := c.cardio + 1 }
  else if pct ≥ 0.5 then { c with fatBurn := c.fatBurn + 1 }
  else { c with rest := c.rest + 1 }

/-- A zone entry of the `HRZones` result: minutes plus percentage. -/
structure HRZone where
  minutes : ℕ
  percent : ℚ
deriving DecidableEq

/-- Result record of `computeHRZones`. -/
structure HRZones where
  rest : HRZone
  fatBurn : HRZone
  cardio : HRZone
  peak : HRZone
deriving DecidableEq

/-- `computeHRZones` from `data-transforms.ts`: classify each record into a
training zone (one record = one minute) and report minutes and percentages;
`total = records.length || 1` guards the division by zero. -/
def computeHRZones (records : List HeartRateRecord) (maxHR : ℚ) : HRZones :=
  let c := records.foldl (zoneStep maxHR) ⟨0, 0, 0, 0⟩
  let total : ℚ := if records.length = 0 then 1 else records.length
  { rest := ⟨c.rest, c.rest / total * 100⟩
    fatBurn := ⟨c.fatBurn, c.fatBurn / total * 100⟩
    cardio := ⟨c.cardio, c.cardio / total * 100⟩
    peak := ⟨c.peak, c.peak / total * 100⟩ }

/-! ### `strain.ts`: daily strain -/

/-- Qualitative strain level. -/
inductive StrainLevel
  | rest
  | light
  | moderate
  | high
  | allOut
deriving DecidableEq

/-- `getStrainLevel` from `strain.ts`. -/
def getStrainLevel (strain : ℚ) : StrainLevel :=
  if strain < 2 then .rest
  else if strain < 7 then .light
  else if strain < 14 then .moderate
  else if strain < 18 then .high
  else .allOut

/-- The `zoneMinutes` component of a computed daily strain. -/
structure ZoneMinutes where
  rest : ℕ
  fatBurn : ℕ
  cardio : ℕ
  peak : ℕ
deriving DecidableEq

/-- Result record of `computeDailyStrain`. -/
structure ComputedDailyStrain where
  date : String
  rawTRIMP : ℕ
  strain : ℚ
  zoneMinutes : ZoneMinutes
  level : StrainLevel
deriving DecidableEq

/-- The saturation curve of `computeDailyStrain`:
`Math.round(21 * (1 - Math.exp(-rawTRIMP / 100)) * 10) / 10`. -/
noncomputable def strainOfTRIMP (t : ℕ) : ℚ :=
  (jsRoundR (21 * (1 - Real.exp (-(t : ℝ) / 100)) * 10) : ℚ) / 10

/-- `computeDailyStrain` from `strain.ts`: zone minutes, raw TRIMP
(`fatBurn*1 + cardio*2 + peak*3`), saturating strain, and level. -/
noncomputable def computeDailyStrain (records : List HeartRateRecord) (maxHR : ℚ) :
    ComputedDailyStrain :=
  let zones := computeHRZones records maxHR
  let rawTRIMP := zones.fatBurn.minutes * 1 + zones.cardio.minutes * 2 +
    zones.peak.minutes * 3
  let strain := strainOfTRIMP rawTRIMP
  { date := match records with
      | [] => ""
      | r :: _ => r.date
    rawTRIMP := rawTRIMP
    strain := strain
    zoneMinutes :=
      ⟨zones.rest.minutes, zones.fatBurn.minutes, zones.cardio.minutes, zones.peak.minutes⟩
    level := getStrainLevel strain }

/-! ### Zone-count bookkeeping lemmas -/

lemma zoneStep_sum (maxHR : ℚ) (c : HRCounts) (r : HeartRateRecord) :
    (zoneStep maxHR c r).rest + (zoneStep maxHR c r).fatBurn +
      (zoneStep maxHR c r).cardio + (zoneStep maxHR c r).peak =
      c.rest + c.fatBurn + c.cardio + c.peak + 1 := by
  unfold zoneStep
  dsimp only
  split_ifs <;> simp <;> ring

lemma foldl_zoneStep_sum (maxHR : ℚ) (records : List HeartRateRecord) (c : HRCounts) :
    (records.foldl (zoneStep maxHR) c).rest + (records.foldl (zoneStep maxHR) c).fatBurn +
      (records.foldl (zoneStep maxHR) c).cardio + (records.foldl (zoneStep maxHR) c).peak =
      c.rest + c.fatBurn + c.cardio + c.peak + records.length := by
  induction records generalizing c with
  | nil => simp
  | cons r rs ih =>
      simp only [List.foldl_cons, List.length_cons]
      rw [ih, zoneStep_sum]
      ring

/-- C2: for every array of heart-rate records and every positive maximum
heart rate, the four zone-minute counts produced by `computeHRZones` and
reported in `computeDailyStrain`'s `zoneMinutes` sum exactly to the number
of input records. -/
theorem zoneMinutes_sum_eq_length (records : List HeartRateRecord) (maxHR : ℚ)
    (hmax : 0 < maxHR) :
    ((computeHRZones records maxHR).rest.minutes +
        (computeHRZones records maxHR).fatBurn.minutes +
        (computeHRZones records maxHR).cardio.minutes +
        (computeHRZones records maxHR).peak.minutes = records.length) ∧
      ((computeDailyStrain records maxHR).zoneMinutes.rest +
        (computeDailyStrain records maxHR).zoneMinutes.fatBurn +
        (computeDailyStrain records maxHR).zoneMinutes.cardio +
        (computeDailyStrain records maxHR).zoneMinutes.peak = records.length) := by
  have h := foldl_zoneStep_sum maxHR records ⟨0, 0, 0, 0⟩
  constructor
  · simpa [computeHRZones] using h
  · simpa [computeDailyStrain, computeHRZones] using h

/-- Witness for C2 at a concrete two-record input. -/
theorem zoneMinutes_sum_eq_length_witness :
    (0 : ℚ) < 190 ∧
      (((computeHRZones [⟨"2025-06-01", "12:00", 100⟩, ⟨"2025-06-01", "12:01", 170⟩] 190).rest.minutes +
        (computeHRZones [⟨"2025-06-01", "12:00", 100⟩, ⟨"2025-06-01", "12:01", 170⟩] 190).fatBurn.minutes +
        (computeHRZones [⟨"2025-06-01", "12:00", 100⟩, ⟨"2025-06-01", "12:01", 170⟩] 190).cardio.minutes +
        (computeHRZones [⟨"2025-06-01", "12:00", 100⟩, ⟨"2025-06-01", "12:01", 170⟩] 190).peak.minutes = 2) ∧
      ((computeDailyStrain [⟨"2025-06-01", "12:00", 100⟩, ⟨"2025-06-01", "12:01", 170⟩] 190).zoneMinutes.rest +
        (computeDailyStrain [⟨"2025-06-01", "12:00", 100⟩, ⟨"2025-06-01", "12:01", 170⟩] 190).zoneMinutes.fatBurn +
        (computeDailyStrain [⟨"2025-06-01", "12:00", 100⟩, ⟨"2025-06-01", "12:01", 170⟩] 190).zoneMinutes.cardio +
        (computeDailyStrain [⟨"2025-06-01", "12:00", 100⟩, ⟨"2025-06-01", "12:01", 170⟩] 190).zoneMinutes.peak = 2)) :=
  ⟨by norm_num,
    zoneMinutes_sum_eq_length
      [⟨"2025-06-01", "12:00", 100⟩, ⟨"2025-06-01", "12:01", 170⟩] 190 (by norm_num)⟩

/-! ### Strain bounds (claim C1) -/

lemma exp_neg_div_le_one (t : ℕ) : Real.exp (-(t : ℝ) / 100) ≤ 1 := by
  have h : -(t : ℝ) / 100 ≤ 0 := by
    have ht : (0 : ℝ) ≤ (t : ℝ) := Nat.cast_nonneg t
    linarith
  calc Real.exp (-(t : ℝ) / 100) ≤ Real.exp 0 := Real.exp_le_exp.mpr h
    _ = 1 := Real.exp_zero

lemma strainOfTRIMP_nonneg (t : ℕ) : 0 ≤ strainOfTRIMP t := by
  unfold strainOfTRIMP jsRoundR
  have hx : (0 : ℝ) ≤ 21 * (1 - Real.exp (-(t : ℝ) / 100)) * 10 := by
    have := exp_neg_div_le_one t
    nlinarith
  have hz : (0 : ℤ) ≤ ⌊21 * (1 - Real.exp (-(t : ℝ) / 100)) * 10 + 1 / 2⌋ := by
    rw [Int.le_floor]
    push_cast
    linarith
  exact div_nonneg (by exact_mod_cast hz) (by norm_num)

lemma strainOfTRIMP_le_21 (t : ℕ) : strainOfTRIMP t ≤ 21 := by
  unfold strainOfTRIMP jsRoundR
  have hexp : 0 < Real.exp (-(t : ℝ) / 100) := Real.exp_pos _
  have hz : ⌊21 * (1 - Real.exp (-(t : ℝ) / 100)) * 10 + 1 / 2⌋ ≤ (210 : ℤ) := by
    have hlt : ⌊21 * (1 - Real.exp (-(t : ℝ) / 100)) * 10 + 1 / 2⌋ < (211 : ℤ) := by
      rw [Int.floor_lt]
      push_cast
      nlinarith
    omega
  have hq : ((⌊21 * (1 - Real.exp (-(t : ℝ) / 100)) * 10 + 1 / 2⌋ : ℤ) : ℚ) ≤ 210 := by
    exact_mod_cast hz
  linarith

/-- C1 (amended): for every array of heart-rate records and every positive
configured maximum heart rate, the strain value returned by
`computeDailyStrain` lies in the closed interval `[0, 21]`. -/
theorem computeDailyStrain_strain_bounds (records : List HeartRateRecord) (maxHR : ℚ)
    (hmax : 0 < maxHR) :
    0 ≤ (computeDailyStrain records maxHR).strain ∧
      (computeDailyStrain records maxHR).strain ≤ 21 := by
  have h : (computeDailyStrain records maxHR).strain =
      strainOfTRIMP ((computeHRZones records maxHR).fatBurn.minutes * 1 +
        (computeHRZones records maxHR).cardio.minutes * 2 +
        (computeHRZones records maxHR).peak.minutes * 3) := by
    simp [computeDailyStrain]
  rw [h]
  exact ⟨strainOfTRIMP_nonneg _, strainOfTRIMP_le_21 _⟩

/-- Witness for the amended C1 at a concrete input. -/
theorem computeDailyStrain_strain_bounds_witness :
    (0 : ℚ) < 190 ∧ 0 ≤ (computeDailyStrain [] 190).strain ∧
      (computeDailyStrain [] 190).strain ≤ 21 :=
  ⟨by norm_num, (computeDailyStrain_strain_bounds [] 190 (by norm_num)).1,
    (computeDailyStrain_strain_bounds [] 190 (by norm_num)).2⟩

lemma exp_606_div_100_ge : (420 : ℝ) ≤ Real.exp (606 / 100) := by
  have e1 : (2.7182818 : ℝ) ≤ Real.exp 1 := by
    have := Real.exp_one_gt_d9
    linarith
  have e6 : (2.7182818 : ℝ) ^ 6 ≤ Real.exp 1 ^ 6 := by
    apply pow_le_pow_left (by norm_num) e1
  have e6' : Real.exp 1 ^ 6 = Real.exp 6 := by
    have h := Real.exp_one_pow 6
    push_cast at h
    exact h
  have e06 : (1.06 : ℝ) ≤ Real.exp (6 / 100) := by
    have := Real.add_one_le_exp (6 / 100 : ℝ)
    linarith
  have hsplit : Real.exp (606 / 100) = Real.exp 6 * Real.exp (6 / 100) := by
    rw [← Real.exp_add]
    norm_num
  have hmul : (2.7182818 : ℝ) ^ 6 * 1.06 ≤ Real.exp 6 * Real.exp (6 / 100) := by
    have h0 : (0 : ℝ) ≤ (2.7182818 : ℝ) ^ 6 := by positivity
    have h1 : (0 : ℝ) ≤ (1.06 : ℝ) := by norm_num
    calc (2.7182818 : ℝ) ^ 6 * 1.06 ≤ Real.exp 6 * 1.06 := by
          apply mul_le_mul_of_nonneg_right _ h1
          rw [← e6']
          exact e6
      _ ≤ Real.exp 6 * Real.exp (6 / 100) := by
          apply mul_le_mul_of_nonneg_left e06 (Real.exp_nonneg 6)
  have hnum : (420 : ℝ) ≤ (2.7182818 : ℝ) ^ 6 * 1.06 := by norm_num
  rw [hsplit]
  linarith

lemma strainOfTRIMP_606 : strainOfTRIMP 606 = 21 := by
  unfold strainOfTRIMP jsRoundR
  have hflip : Real.exp (-(606 : ℝ) / 100) = (Real.exp (606 / 100))⁻¹ := by
    rw [neg_div, Real.exp_neg]
  have hpos : (0 : ℝ) < Real.exp (606 / 100) := Real.exp_pos _
  have hsmall : Real.exp (-(606 : ℝ) / 100) ≤ 1 / 420 := by
    rw [hflip]
    rw [inv_le (by positivity) (by norm_num)]
    have := exp_606_div_100_ge
    linarith
  have hexp : 0 < Real.exp (-(606 : ℝ) / 100) := Real.exp_pos _
  have hfloor : ⌊21 * (1 - Real.exp (-((606 : ℕ) : ℝ) / 100)) * 10 + 1 / 2⌋ = (210 : ℤ) := by
    rw [Int.floor_eq_iff]
    push_cast
    constructor
    · nlinarith
    · nlinarith
  rw [hfloor]
  norm_num

lemma foldl_zoneStep_replicate190 (n : ℕ) (c : HRCounts) :
    (List.replicate n (⟨"2025-06-01", "12:00", 190⟩ : HeartRateRecord)).foldl
        (zoneStep 190) c = { c with peak := c.peak + n } := by
  induction n generalizing c with
  | zero => simp
  | succ n ih =>
      rw [List.replicate_succ, List.foldl_cons, ih]
      have hstep : zoneStep 190 c ⟨"2025-06-01", "12:00", 190⟩ =
          { c with peak := c.peak + 1 } := by
        unfold zoneStep
        norm_num
      rw [hstep]
      dsimp only
      congr 1
      omega

/-- Counterexample to C1 as stated: with 202 peak-zone samples
(`rawTRIMP = 606`), the rounded strain value is exactly 21, so it is not
strictly below 21. -/
theorem computeDailyStrain_strain_reaches_21 :
    ¬ ((computeDailyStrain
        (List.replicate 202 (⟨"2025-06-01", "12:00", 190⟩ : HeartRateRecord)) 190).strain
        < 21) := by
  have h : (computeDailyStrain
      (List.replicate 202 (⟨"2025-06-01", "12:00", 190⟩ : HeartRateRecord)) 190).strain =
      strainOfTRIMP 606 := by
    simp only [computeDailyStrain, computeHRZones, foldl_zoneStep_replicate190]
  rw [h, strainOfTRIMP_606]
  simp

/-! ### `recovery.ts`: daily recovery score -/

/-- A wall-clock time of day, standing for the hour and minute fields that
the source reads off a parsed ISO datetime string (`getHours`,
`getMinutes`); the ISO parsing itself is I/O plumbing outside this core. -/
structure ClockTime where
  hour : ℕ
  minute : ℕ
deriving DecidableEq

/-- A nightly sleep record (`Sleep` in `data-types.ts`); stage durations are
minutes, `start` and `stop` are the parsed bed and wake times. -/
structure Sleep where
  date : String
  deepSleepTime : ℚ
  shallowSleepTime : ℚ
  wakeTime : ℚ
  start : ClockTime
  stop : ClockTime
  REMTime : ℚ
deriving DecidableEq

/-- Traffic-light level used by recovery and sleep scores. -/
inductive ScoreLevel
  | green
  | yellow
  | red
deriving DecidableEq

/-- Result record of `computeDailyRecovery`. -/
structure ComputedRecoveryScore where
  date : String
  score : ℤ
  rhrBpm : ℚ
  rhrBaseline : ℚ
  sleepComponent : ℚ
  strainComponent : ℚ
  level : ScoreLevel
deriving DecidableEq

/-- `computeDailyRecovery` from `recovery.ts`: RHR component (40 %), sleep
component (40 %), strain component (20 %), each with its neutral default;
final score is rounded and clamped to `[0, 100]`. -/
def computeDailyRecovery (date : String) (rhrBpm : Option ℚ) (rhrBaseline : ℚ)
    (sleepNight : Option Sleep) (priorStrain : Option ComputedDailyStrain) :
    ComputedRecoveryScore :=
  let rhrScore : ℚ :=
    match rhrBpm with
    | none => 50
    | some bpm => max 0 (min 100 (100 - (bpm - rhrBaseline) * 5))
  let sleepScore : ℚ :=
    match sleepNight with
    | none => 50
    | some night =>
        min 100 ((night.deepSleepTime + night.shallowSleepTime + night.REMTime) / 480 * 100)
  let strainScore : ℚ :=
    match priorStrain with
    | none => 75
    | some ps => max 0 (100 - ps.strain / 21 * 100)
  let raw := rhrScore * 0.4 + sleepScore * 0.4 + strainScore * 0.2
  let score := max 0 (min 100 (jsRound raw))
  let level : ScoreLevel := if score ≥ 67 then .green else if score ≥ 34 then .yellow else .red
  { date := date
    score := score
    rhrBpm := rhrBpm.getD 0
    rhrBaseline := rhrBaseline
    sleepComponent := sleepScore
    strainComponent := strainScore
    level := level }

/-- C3: with a nightly resting HR equal to the baseline, a sleep night whose
deep + light + REM minutes total exactly 480, and no prior-day strain,
`computeDailyRecovery` returns a score of exactly 95, for every date string
and every baseline value. -/
theorem computeDailyRecovery_neutral_is_95 (date : String) (b : ℚ) (night : Sleep)
    (hsum : night.deepSleepTime + night.shallowSleepTime + night.REMTime = 480) :
    (computeDailyRecovery date (some b) b (some night) none).score = 95 := by
  unfold computeDailyRecovery
  dsimp only
  rw [hsum]
  norm_num [jsRound]

/-- Witness for C3 at a concrete date, baseline, and sleep night. -/
theorem computeDailyRecovery_neutral_is_95_witness :
    ((96 : ℚ) + 264 + 120 = 480) ∧
      (computeDailyRecovery "2025-06-02" (some 65) 65
        (some ⟨"2025-06-02", 96, 264, 0, ⟨23, 0⟩, ⟨7, 0⟩, 120⟩) none).score = 95 :=
  ⟨by norm_num,
    computeDailyRecovery_neutral_is_95 "2025-06-02" 65
      ⟨"2025-06-02", 96, 264, 0, ⟨23, 0⟩, ⟨7, 0⟩, 120⟩ (by norm_num)⟩

/-! ### Sorting helper: JavaScript stable comparison sort -/

/-- Insert `x` into `l` immediately before the first element `y` with
`le x y`; used to model `Array.prototype.sort` (a stable sort). -/
def insertLe {α : Type} (le : α → α → Bool) (x : α) : List α → List α
  | [] => [x]
  | y :: ys => if le x y then x :: y :: ys else y :: insertLe le x ys

/-- Stable insertion sort, the model of `Array.prototype.sort` with a
comparator. -/
def sortLe {α : Type} (le : α → α → Bool) : List α → List α
  | [] => []
  | x :: xs => insertLe le x (sortLe le xs)

/-- Numeric ascending sort `(a, b) => a - b`. -/
def sortQ (l : List ℚ) : List ℚ := sortLe (fun a b => decide (a ≤ b)) l

/-! ### `sleep-score.ts`: enhanced sleep score -/

/-- Result record of `computeEnhancedSleepScore`. -/
structure ComputedEnhancedSleepScore where
  date : String
  score : ℤ
  sufficiency : ℚ
  efficiency : ℚ
  stageQuality : ℚ
  consistency : ℚ
  level : ScoreLevel
deriving DecidableEq

/-- `bedtimeHour` from `sleep-score.ts`: hour + minute fraction, with hours
at or before 12 treated as after-midnight and shifted by +24. -/
def bedtimeHour (t : ClockTime) : ℚ :=
  let h : ℚ := (t.hour : ℚ) + (t.minute : ℚ) / 60
  if h ≤ 12 then h + 24 else h

/-- The `median` helper of `sleep-score.ts`: sorts a copy, returns 0 for
empty input, the middle element for odd length, and the mean of the two
middle elements for even length. -/
def medianList (values : List ℚ) : ℚ :=
  if values.length = 0 then 0
  else
    let sorted := sortQ values
    let mid := sorted.length / 2
    if sorted.length % 2 ≠ 0 then sorted.getD mid 0
    else (sorted.getD (mid - 1) 0 + sorted.getD mid 0) / 2

/-- `scoreSufficiency`: how close total sleep is to the 480-minute target. -/
def scoreSufficiency (night : Sleep) : ℚ :=
  let actualMin := night.deepSleepTime + night.shallowSleepTime + night.REMTime
  min (actualMin / 480 * 100) 100

/-- `scoreEfficiency`: share of time in bed actually asleep. -/
def scoreEfficiency (night : Sleep) : ℚ :=
  let totalInBed := night.deepSleepTime + night.shallowSleepTime + night.REMTime + night.wakeTime
  if totalInBed ≤ 0 then 0
  else (totalInBed - night.wakeTime) / totalInBed * 100

/-- `scoreStageQuality`: deviation of stage proportions from the ideal
deep 20 % / REM 25 % / light 55 % split. -/
def scoreStageQuality (night : Sleep) : ℚ :=
  let actualMin := night.deepSleepTime + night.shallowSleepTime + night.REMTime
  if actualMin ≤ 0 then 0
  else
    let deepPct := night.deepSleepTime / actualMin
    let remPct := night.REMTime / actualMin
    let lightPct := night.shallowSleepTime / actualMin
    let deepDeviation := |deepPct - 0.2| / 0.2
    let remDeviation := |remPct - 0.25| / 0.25
    let lightDeviation := |lightPct - 0.55| / 0.55
    max 0 (100 - (deepDeviation + remDeviation + lightDeviation) * 33.33)

/-- `scoreConsistency`: 25 points per hour of deviation from the median of
the previous bedtimes; a neutral 75 when fewer than 3 previous nights are
available. -/
def scoreConsistency (night : Sleep) (prevNights : List Sleep) : ℚ :=
  if prevNights.length < 3 then 75
  else
    let prevBedHours := prevNights.map (fun n => bedtimeHour n.start)
    let medianBedHour := medianList prevBedHours
    let currentBedHour := bedtimeHour night.start
    let bedtimeDeviation := |currentBedHour - medianBedHour|
    max 0 (100 - bedtimeDeviation * 25)

/-- `computeEnhancedSleepScore` from `sleep-score.ts`: weighted sum of the
four sub-scores (0.30 / 0.25 / 0.25 / 0.20), rounded; level at 70 / 40. -/
def computeEnhancedSleepScore (night : Sleep) (prevNights : List Sleep) :
    ComputedEnhancedSleepScore :=
  let sufficiency := scoreSufficiency night
  let efficiency := scoreEfficiency night
  let stageQuality := scoreStageQuality night
  let consistency := scoreConsistency night prevNights
  let score := jsRound (sufficiency * 0.3 + efficiency * 0.25 +
    stageQuality * 0.25 + consistency * 0.2)
  let level : ScoreLevel := if score ≥ 70 then .green else if score ≥ 40 then .yellow else .red
  { date := night.date
    score := score
    sufficiency := sufficiency
    efficiency := efficiency
    stageQuality := stageQuality
    consistency := consistency
    level := level }

/-- C4: a night with deep = 96, light = 264, REM = 120, wake = 0 and no
previous nights yields consistency 75 (fewer-than-3 fallback) and
sufficiency 100. -/
theorem computeEnhancedSleepScore_example_night :
    (computeEnhancedSleepScore ⟨"2025-06-02", 96, 264, 0, ⟨23, 0⟩, ⟨7, 0⟩, 120⟩ []).consistency
        = 75 ∧
      (computeEnhancedSleepScore ⟨"2025-06-02", 96, 264, 0, ⟨23, 0⟩, ⟨7, 0⟩, 120⟩ []).sufficiency
        = 100 := by
  constructor
  · simp [computeEnhancedSleepScore, scoreConsistency]
  · norm_num [computeEnhancedSleepScore, scoreSufficiency]

/-! ### `vo2max.ts`: VO2 Max estimation -/

/-- Result record of `estimateVO2Max`. -/
structure ComputedVO2Max where
  vo2max : ℚ
  classification : String
  percentile : ℕ
deriving DecidableEq

/-- `estimateVO2Max` from `vo2max.ts`: the Uth formula
`15.3 * (maxHR / restingHR)` rounded to one decimal, with fitness-table
classification buckets. -/
def estimateVO2Max (maxHR restingHR : ℚ) : ComputedVO2Max :=
  let raw := 15.3 * (maxHR / restingHR)
  let vo2max := (jsRound (raw * 10) : ℚ) / 10
  if vo2max < 36 then ⟨vo2max, "Poor", 15⟩
  else if vo2max < 42 then ⟨vo2max, "Fair", 30⟩
  else if vo2max < 46 then ⟨vo2max, "Average", 50⟩
  else if vo2max < 50 then ⟨vo2max, "Good", 70⟩
  else if vo2max < 56 then ⟨vo2max, "Excellent", 85⟩
  else ⟨vo2max, "Superior", 95⟩

/-- C5: `estimateVO2Max 190 50` returns value 58.1 (15.3 * 190 / 50 = 58.14
rounded to one decimal) with classification "Superior". -/
theorem estimateVO2Max_190_50 :
    (estimateVO2Max 190 50).vo2max = 58.1 ∧
      (estimateVO2Max 190 50).classification = "Superior" := by
  have hfloor : jsRound (15.3 * ((190 : ℚ) / 50) * 10) = 581 := by
    unfold jsRound
    rw [Int.floor_eq_iff]
    norm_num
  unfold estimateVO2Max
  dsimp only
  rw [hfloor]
  norm_num

/-! ### `sleep-need.ts`: recommended sleep duration -/

/-- Result record of `computeSleepNeed`. -/
structure ComputedSleepNeed where
  recommendedMin : ℚ
  baseMin : ℚ
  strainAdjustMin : ℚ
  debtAdjustMin : ℚ
deriving DecidableEq

/-- `computeSleepNeed` from `sleep-need.ts`: 480-minute base, a step
strain adjustment, and a debt catch-up of 25 % clamped to `[0, 30]`. -/
def computeSleepNeed (todayStrain sleepDebtMin : ℚ) : ComputedSleepNeed :=
  let baseMin : ℚ := 480
  let strainAdjustMin : ℚ :=
    if todayStrain < 7 then 0
    else if todayStrain < 14 then 15
    else if todayStrain < 18 then 30
    else 45
  let debtAdjustMin := min (max (sleepDebtMin * 0.25) 0) 30
  { recommendedMin := baseMin + strainAdjustMin + debtAdjustMin
    baseMin := baseMin
    strainAdjustMin := strainAdjustMin
    debtAdjustMin := debtAdjustMin }

/-- C10: for every strain value and every sleep-debt value (negative debt
included), the recommendation stays in `[480, 555]`: the strain adjustment
is one of 0, 15, 30, 45 and the debt adjustment is clamped to `[0, 30]`. -/
theorem computeSleepNeed_bounds (s d : ℚ) :
    480 ≤ (computeSleepNeed s d).recommendedMin ∧
      (computeSleepNeed s d).recommendedMin ≤ 555 ∧
      ((computeSleepNeed s d).strainAdjustMin = 0 ∨
        (computeSleepNeed s d).strainAdjustMin = 15 ∨
        (computeSleepNeed s d).strainAdjustMin = 30 ∨
        (computeSleepNeed s d).strainAdjustMin = 45) ∧
      0 ≤ (computeSleepNeed s d).debtAdjustMin ∧
      (computeSleepNeed s d).debtAdjustMin ≤ 30 := by
  unfold computeSleepNeed
  dsimp only
  have hdl : (0 : ℚ) ≤ min (max (d * 0.25) 0) 30 :=
    le_min (le_max_right _ _) (by norm_num)
  have hdu : min (max (d * 0.25) 0) 30 ≤ 30 := min_le_right _ _
  split_ifs <;>
    exact ⟨by linarith, by linarith, by norm_num, hdl, hdu⟩

/-! ### JavaScript string comparison

JavaScript compares strings lexicographically by code unit; for the ASCII
date and `"HH:mm"` strings of this pipeline that is lexicographic
comparison of the character lists. -/

/-- Lexicographic strict comparison of character lists by code point. -/
def strLtB : List Char → List Char → Bool
  | _, [] => false
  | [], _ :: _ => true
  | a :: as, b :: bs =>
      if a.toNat < b.toNat then true
      else if b.toNat < a.toNat then false
      else strLtB as bs

/-- JavaScript string `<`. -/
def jsStrLt (s t : String) : Bool := strLtB s.data t.data

/-- JavaScript string `<=` (`a <= b` is `!(b < a)`). -/
def jsStrLe (s t : String) : Bool := !(jsStrLt t s)

/-- The nocturnal-window test `time >= '02:00' && time < '05:00'` shared by
`computeNightlyRestingHR` and `buildDailyHRSummary`. -/
def isNightTime (time : String) : Bool := jsStrLe "02:00" time && jsStrLt time "05:00"

/-! ### Association lists: the model of JavaScript `Map` -/

/-- `Map.prototype.get`: first binding of the key, if any. -/
def getA {α : Type} : List (String × α) → String → Option α
  | [], _ => none
  | (k', v) :: rest, k => if k' = k then some v else getA rest k

/-- `Map.prototype.set`: overwrite in place if the key is present,
otherwise append; preserves insertion order like a JavaScript `Map`. -/
def setA {α : Type} : List (String × α) → String → α → List (String × α)
  | [], k, v => [(k, v)]
  | (k', v') :: rest, k, v =>
      if k' = k then (k, v) :: rest else (k', v') :: setA rest k v

/-! ### `recovery.ts`: nightly resting HR and baseline -/

/-- The `median` helper of `recovery.ts`, which expects an already-sorted
array: 0 for empty input, middle element for odd length, mean of the two
middle elements for even length. -/
def medianSorted (sorted : List ℚ) : ℚ :=
  let n := sorted.length
  if n = 0 then 0
  else if n % 2 = 1 then sorted.getD (n / 2) 0
  else (sorted.getD (n / 2 - 1) 0 + sorted.getD (n / 2) 0) / 2

/-- `computeNightlyRestingHR` from `recovery.ts`: median heart rate of the
records in the `[02:00, 05:00)` window, `none` when there are none. -/
def computeNightlyRestingHR (hrRecords : List HeartRateRecord) : Option ℚ :=
  let nightRecords := hrRecords.filter (fun r => isNightTime r.time)
  if nightRecords.length = 0 then none
  else some (medianSorted (sortQ (nightRecords.map (fun r => r.heartRate))))

/-- `computeRHRBaseline` from `recovery.ts`: median of the nightly RHR
values, 65 bpm when none are available. -/
def computeRHRBaseline (nightlyRHRs : List ℚ) : ℚ :=
  if nightlyRHRs.length = 0 then 65
  else medianSorted (sortQ nightlyRHRs)

/-! ### `compute-scores.ts`: the orchestrator -/

/-- A per-day heart-rate summary (`DailyHRSummary` in `data-types.ts`).
The `resting` field is a JavaScript number that is `Infinity` until a
nocturnal sample is seen; `none` models that `Infinity` sentinel. -/
structure DailyHRSummary where
  date : String
  min : ℚ
  max : ℚ
  avg : ℚ
  resting : Option ℚ
  count : ℕ
deriving DecidableEq

/-- Input of `computeAllScores` (`ScoreInput` in `compute-scores.ts`). -/
structure ScoreInput where
  heartRateByDay : List (String × List HeartRateRecord)
  dailyHRSummary : List (String × DailyHRSummary)
  sleep : List Sleep

/-- Output of `computeAllScores` (`ComputedScores` in `compute-scores.ts`). -/
structure ComputedScores where
  computedStrain : List (String × ComputedDailyStrain)
  computedRecovery : List (String × ComputedRecoveryScore)
  computedSleepScore : List (String × ComputedEnhancedSleepScore)
  computedVO2Max : Option ComputedVO2Max

/-- The `MAX_HR` constant of `compute-scores.ts`. -/
def MAX_HR : ℚ := 190

/-- `computeAllScores` from `compute-scores.ts`: strain per day, sleep
scores over the date-sorted nights with a trailing 14-night window,
nightly resting HRs, recovery per day with a 14-day rolling baseline and
the prior day's strain, and a single VO2 Max estimate from the daily
summaries. -/
noncomputable def computeAllScores (input : ScoreInput) : ComputedScores :=
  let computedStrain := input.heartRateByDay.foldl
    (fun m p => setA m p.1 (computeDailyStrain p.2 MAX_HR)) []
  let sortedSleep := sortLe (fun a b : Sleep => !(jsStrLt b.date a.date)) input.sleep
  let computedSleepScore := sortedSleep.enum.foldl
    (fun m p =>
      let prevNights := (sortedSleep.drop (p.1 - 14)).take (p.1 - (p.1 - 14))
      setA m p.2.date (computeEnhancedSleepScore p.2 prevNights)) []
  let allDates := sortLe (fun a b : String => !(jsStrLt b a))
    (input.heartRateByDay.map Prod.fst)
  let nightlyRHRMap := allDates.foldl
    (fun m date =>
      match getA input.heartRateByDay date with
      | none => m
      | some dayRecords =>
          match computeNightlyRestingHR dayRecords with
          | none => m
          | some rhr => setA m date rhr) []
  let sleepByDate := input.sleep.foldl (fun m s => setA m s.date s) []
  let computedRecovery := allDates.enum.foldl
    (fun m p =>
      let rhr := getA nightlyRHRMap p.2
      let baselineRHRs := ((allDates.drop (p.1 - 14)).take (p.1 - (p.1 - 14))).filterMap
        (fun d => getA nightlyRHRMap d)
      let rhrBaseline := computeRHRBaseline baselineRHRs
      let sleepNight := getA sleepByDate p.2
      let priorStrain := (if p.1 = 0 then none else allDates.get? (p.1 - 1)).bind
        (fun d => getA computedStrain d)
      setA m p.2 (computeDailyRecovery p.2 rhr rhrBaseline sleepNight priorStrain)) []
  let computedVO2Max : Option ComputedVO2Max :=
    if input.dailyHRSummary.length = 0 then none
    else
      let overallMaxHR := input.dailyHRSummary.foldl (fun acc p => max acc p.2.max) 0
      let restingHRs := input.dailyHRSummary.filterMap (fun p => p.2.resting)
      if 0 < restingHRs.length ∧ 0 < overallMaxHR then
        let sortedRHRs := sortQ restingHRs
        let medianRHR :=
          if sortedRHRs.length % 2 = 1 then sortedRHRs.getD (sortedRHRs.length / 2) 0
          else (sortedRHRs.getD (sortedRHRs.length / 2 - 1) 0 +
            sortedRHRs.getD (sortedRHRs.length / 2) 0) / 2
        some (estimateVO2Max overallMaxHR medianRHR)
      else none
  { computedStrain := computedStrain
    computedRecovery := computedRecovery
    computedSleepScore := computedSleepScore
    computedVO2Max := computedVO2Max }

/-- C6: when the daily heart-rate summary index is empty, `computeAllScores`
returns `none` for the VO2 Max result. -/
theorem computeAllScores_vo2max_none_of_no_hr (input : ScoreInput)
    (h : input.dailyHRSummary = []) :
    (computeAllScores input).computedVO2Max = none := by
  unfold computeAllScores
  dsimp only
  rw [h]
  simp

/-- Witness for C6 at the empty input. -/
theorem computeAllScores_vo2max_none_of_no_hr_witness :
    (⟨[], [], []⟩ : ScoreInput).dailyHRSummary = [] ∧
      (computeAllScores ⟨[], [], []⟩).computedVO2Max = none :=
  ⟨rfl, computeAllScores_vo2max_none_of_no_hr ⟨[], [], []⟩ rfl⟩

/-- C7: `computeAllScores` is deterministic: two runs on identical input
produce identical output maps and VO2 Max value. -/
theorem computeAllScores_deterministic (input other : ScoreInput) (h : input = other) :
    computeAllScores input = computeAllScores other :=
  congrArg computeAllScores h

/-- Witness for C7 at a concrete input. -/
theorem computeAllScores_deterministic_witness :
    (⟨[("2025-06-01", [⟨"2025-06-01", "12:00", 100⟩])], [], []⟩ : ScoreInput) =
        ⟨[("2025-06-01", [⟨"2025-06-01", "12:00", 100⟩])], [], []⟩ ∧
      computeAllScores ⟨[("2025-06-01", [⟨"2025-06-01", "12:00", 100⟩])], [], []⟩ =
        computeAllScores ⟨[("2025-06-01", [⟨"2025-06-01", "12:00", 100⟩])], [], []⟩ :=
  ⟨rfl, computeAllScores_deterministic _ _ rfl⟩

/-! ### `app/(activity)/index.tsx`: the daily heart-rate summary index -/

/-- The body of `Math.min(existing.resting, rec.heartRate)` where
`existing.resting` may still be the `Infinity` sentinel (`none`). -/
def nightMinStep (resting : Option ℚ) (r : HeartRateRecord) : Option ℚ :=
  some (match resting with
    | none => r.heartRate
    | some q => min q r.heartRate)

/-- The resting-HR update of `buildDailyHRSummary`: only samples in the
nocturnal window lower the resting estimate. -/
def restingStep (resting : Option ℚ) (r : HeartRateRecord) : Option ℚ :=
  if isNightTime r.time then nightMinStep resting r else resting

/-- The `else` branch of `buildDailyHRSummary`: the first record of a date
creates that date's summary. -/
def initSummary (r : HeartRateRecord) : DailyHRSummary :=
  { date := r.date
    min := r.heartRate
    max := r.heartRate
    avg := r.heartRate
    resting := if isNightTime r.time then some r.heartRate else none
    count := 1 }

/-- The `if existing` branch of `buildDailyHRSummary`: update min, max, the
running mean, the count, and (for nocturnal samples) the resting value. -/
def updateSummary (s : DailyHRSummary) (r : HeartRateRecord) : DailyHRSummary :=
  { s with
    min := min s.min r.heartRate
    max := max s.max r.heartRate
    avg := (s.avg * s.count + r.heartRate) / (s.count + 1)
    count := s.count + 1
    resting := restingStep s.resting r }

/-- One iteration of the main loop of `buildDailyHRSummary`. -/
def buildStep (m : List (String × DailyHRSummary)) (r : HeartRateRecord) :
    List (String × DailyHRSummary) :=
  match getA m r.date with
  | some s => setA m r.date (updateSummary s r)
  | none => setA m r.date (initSummary r)

/-- The final pass of `buildDailyHRSummary`: a day whose resting value is
still `Infinity` (no nocturnal reading) falls back to the day's minimum. -/
def fallbackResting (s : DailyHRSummary) : DailyHRSummary :=
  match s.resting with
  | none => { s with resting := some s.min }
  | some _ => s

/-- `buildDailyHRSummary` from `app/(activity)/index.tsx`: fold the records
into a date-keyed summary map, then apply the resting fallback. -/
def buildDailyHRSummary (records : List HeartRateRecord) :
    List (String × DailyHRSummary) :=
  (records.foldl buildStep []).map (fun p => (p.1, fallbackResting p.2))

/-- What the main loop does to the single date `d`: the first record of the
date initialises the summary, later ones update it. -/
def processDay (s : Option DailyHRSummary) (r : HeartRateRecord) :
    Option DailyHRSummary :=
  match s with
  | none => some (initSummary r)
  | some s => some (updateSummary s r)

lemma getA_setA {α : Type} (m : List (String × α)) (k d : String) (v : α) :
    getA (setA m k v) d = if k = d then some v else getA m d := by
  induction m with
  | nil => simp [setA, getA]
  | cons p rest ih =>
      obtain ⟨k', v'⟩ := p
      by_cases h : k' = k
      · subst h
        simp only [setA, getA, if_pos rfl, ite_true]
        split_ifs <;> simp_all [getA]
      · by_cases hd : k' = d
        · subst hd
          simp [setA, getA, h, Ne.symm h]
        · simp [setA, getA, h, hd, ih]

lemma getA_buildStep (m : List (String × DailyHRSummary)) (r : HeartRateRecord)
    (d : String) :
    getA (buildStep m r) d =
      if r.date = d then processDay (getA m d) r else getA m d := by
  by_cases hd : r.date = d
  · subst hd
    unfold buildStep processDay
    cases h : getA m r.date with
    | none => simp [getA_setA, h]
    | some s => simp [getA_setA, h]
  · unfold buildStep processDay
    cases h : getA m r.date with
    | none => simp [getA_setA, hd]
    | some s => simp [getA_setA, hd]

lemma getA_foldl_buildStep (records : List HeartRateRecord)
    (m : List (String × DailyHRSummary)) (d : String) :
    getA (records.foldl buildStep m) d =
      (records.filter (fun r => r.date = d)).foldl processDay (getA m d) := by
  induction records generalizing m with
  | nil => simp
  | cons r rs ih =>
      rw [List.foldl_cons, ih]
      by_cases hd : r.date = d
      · rw [List.filter_cons_of_pos (by simp [hd]), List.foldl_cons,
          getA_buildStep, if_pos hd]
      · rw [List.filter_cons_of_neg (by simp [hd]), getA_buildStep, if_neg hd]

lemma getA_map_snd {α β : Type} (f : α → β) (m : List (String × α)) (d : String) :
    getA (m.map (fun p => (p.1, f p.2))) d = (getA m d).map f := by
  induction m with
  | nil => rfl
  | cons p rest ih =>
      obtain ⟨k, v⟩ := p
      by_cases h : k = d <;> simp [getA, h, ih]

lemma getA_buildDailyHRSummary (records : List HeartRateRecord) (d : String) :
    getA (buildDailyHRSummary records) d =
      ((records.filter (fun r => r.date = d)).foldl processDay none).map
        fallbackResting := by
  unfold buildDailyHRSummary
  rw [getA_map_snd, getA_foldl_buildStep]
  rfl

lemma foldl_processDay_some (xs : List HeartRateRecord) (s : DailyHRSummary) :
    xs.foldl processDay (some s) = some (xs.foldl updateSummary s) := by
  induction xs generalizing s with
  | nil => rfl
  | cons r rs ih => simp [processDay, ih]

lemma foldl_update_date (xs : List HeartRateRecord) (s : DailyHRSummary) :
    (xs.foldl updateSummary s).date = s.date := by
  induction xs generalizing s with
  | nil => rfl
  | cons r rs ih => simp [updateSummary, ih]

lemma foldl_update_count (xs : List HeartRateRecord) (s : DailyHRSummary) :
    (xs.foldl updateSummary s).count = s.count + xs.length := by
  induction xs generalizing s with
  | nil => rfl
  | cons r rs ih =>
      rw [List.foldl_cons, ih]
      simp [updateSummary]
      omega

lemma foldl_update_min (xs : List HeartRateRecord) (s : DailyHRSummary) :
    (xs.foldl updateSummary s).min =
      xs.foldl (fun m r => min m r.heartRate) s.min := by
  induction xs generalizing s with
  | nil => rfl
  | cons r rs ih => simp [updateSummary, ih]

lemma foldl_update_max (xs : List HeartRateRecord) (s : DailyHRSummary) :
    (xs.foldl updateSummary s).max =
      xs.foldl (fun m r => max m r.heartRate) s.max := by
  induction xs generalizing s with
  | nil => rfl
  | cons r rs ih => simp [updateSummary, ih]

lemma foldl_update_resting (xs : List HeartRateRecord) (s : DailyHRSummary) :
    (xs.foldl updateSummary s).resting = xs.foldl restingStep s.resting := by
  induction xs generalizing s with
  | nil => rfl
  | cons r rs ih => simp [updateSummary, ih]

lemma foldl_update_avg (xs : List HeartRateRecord) (s : DailyHRSummary)
    (hc : s.count ≠ 0) :
    (xs.foldl updateSummary s).avg =
      (s.avg * s.count + (xs.map (fun r => r.heartRate)).sum) /
        (s.count + xs.length) := by
  induction xs generalizing s with
  | nil =>
      have h : (s.count : ℚ) ≠ 0 := Nat.cast_ne_zero.mpr hc
      simp [mul_div_assoc, div_self h]
  | cons r rs ih =>
      rw [List.foldl_cons, ih (updateSummary s r) (by simp [updateSummary])]
      have h1 : ((s.count : ℚ) + 1) ≠ 0 := by positivity
      simp only [updateSummary]
      push_cast
      field_simp
      ring

lemma foldl_min_le_init (xs : List HeartRateRecord) (a : ℚ) :
    xs.foldl (fun m r => min m r.heartRate) a ≤ a := by
  induction xs generalizing a with
  | nil => simp
  | cons r rs ih =>
      calc rs.foldl (fun m r => min m r.heartRate) (min a r.heartRate)
          ≤ min a r.heartRate := ih _
        _ ≤ a := min_le_left _ _

lemma foldl_min_le_mem (xs : List HeartRateRecord) (a : ℚ) {r : HeartRateRecord}
    (hr : r ∈ xs) :
    xs.foldl (fun m r => min m r.heartRate) a ≤ r.heartRate := by
  induction xs generalizing a with
  | nil => cases hr
  | cons x rs ih =>
      rcases List.mem_cons.mp hr with h | h
      · subst h
        calc rs.foldl (fun m r => min m r.heartRate) (min a r.heartRate)
            ≤ min a r.heartRate := foldl_min_le_init _ _
          _ ≤ r.heartRate := min_le_right _ _
      · exact ih _ h

lemma foldl_min_le_of_mem_cons (x : HeartRateRecord) (xs : List HeartRateRecord)
    {r : HeartRateRecord} (hr : r ∈ x :: xs) :
    xs.foldl (fun m r => min m r.heartRate) x.heartRate ≤ r.heartRate := by
  rcases List.mem_cons.mp hr with h | h
  · subst h
    exact foldl_min_le_init _ _
  · exact foldl_min_le_mem _ _ h

lemma foldl_min_eq_init_or_mem (xs : List HeartRateRecord) (a : ℚ) :
    xs.foldl (fun m r => min m r.heartRate) a = a ∨
      ∃ r ∈ xs, xs.foldl (fun m r => min m r.heartRate) a = r.heartRate := by
  induction xs generalizing a with
  | nil => exact Or.inl rfl
  | cons x rs ih =>
      rw [List.foldl_cons]
      rcases ih (min a x.heartRate) with h | ⟨r, hr, h⟩
      · rw [h]
        rcases le_total a x.heartRate with hle | hle
        · exact Or.inl (min_eq_left hle)
        · exact Or.inr ⟨x, List.mem_cons_self x rs, min_eq_right hle⟩
      · exact Or.inr ⟨r, List.mem_cons_of_mem _ hr, h⟩

lemma le_foldl_max_init (xs : List HeartRateRecord) (a : ℚ) :
    a ≤ xs.foldl (fun m r => max m r.heartRate) a := by
  induction xs generalizing a with
  | nil => simp
  | cons r rs ih =>
      calc a ≤ max a r.heartRate := le_max_left _ _
        _ ≤ rs.foldl (fun m r => max m r.heartRate) (max a r.heartRate) := ih _

lemma le_foldl_max_mem (xs : List HeartRateRecord) (a : ℚ) {r : HeartRateRecord}
    (hr : r ∈ xs) :
    r.heartRate ≤ xs.foldl (fun m r => max m r.heartRate) a := by
  induction xs generalizing a with
  | nil => cases hr
  | cons x rs ih =>
      rcases List.mem_cons.mp hr with h | h
      · subst h
        calc r.heartRate ≤ max a r.heartRate := le_max_right _ _
          _ ≤ rs.foldl (fun m r => max m r.heartRate) (max a r.heartRate) :=
            le_foldl_max_init _ _
      · exact ih _ h

lemma le_foldl_max_of_mem_cons (x : HeartRateRecord) (xs : List HeartRateRecord)
    {r : HeartRateRecord} (hr : r ∈ x :: xs) :
    r.heartRate ≤ xs.foldl (fun m r => max m r.heartRate) x.heartRate := by
  rcases List.mem_cons.mp hr with h | h
  · subst h
    exact le_foldl_max_init _ _
  · exact le_foldl_max_mem _ _ h

lemma length_mul_le_sum (l : List ℚ) (b : ℚ) (hb : ∀ v ∈ l, b ≤ v) :
    (l.length : ℚ) * b ≤ l.sum := by
  induction l with
  | nil => simp
  | cons x xs ih =>
      have hx : b ≤ x := hb x (List.mem_cons_self x xs)
      have h := ih (fun v hv => hb v (List.mem_cons_of_mem _ hv))
      simp only [List.length_cons, List.sum_cons]
      push_cast
      nlinarith

lemma sum_le_length_mul (l : List ℚ) (b : ℚ) (hb : ∀ v ∈ l, v ≤ b) :
    l.sum ≤ (l.length : ℚ) * b := by
  induction l with
  | nil => simp
  | cons x xs ih =>
      have hx : x ≤ b := hb x (List.mem_cons_self x xs)
      have h := ih (fun v hv => hb v (List.mem_cons_of_mem _ hv))
      simp only [List.length_cons, List.sum_cons]
      push_cast
      nlinarith

lemma foldl_restingStep_filter (xs : List HeartRateRecord) (m0 : Option ℚ) :
    xs.foldl restingStep m0 =
      (xs.filter (fun r => isNightTime r.time)).foldl nightMinStep m0 := by
  induction xs generalizing m0 with
  | nil => rfl
  | cons r rs ih =>
      rw [List.foldl_cons, ih]
      by_cases h : isNightTime r.time
      · rw [List.filter_cons_of_pos (by simp [h]), List.foldl_cons]
        simp [restingStep, h]
      · rw [List.filter_cons_of_neg (by simp [h])]
        simp [restingStep, h]

lemma foldl_nightMinStep_some (xs : List HeartRateRecord) (a : ℚ) :
    xs.foldl nightMinStep (some a) =
      some (xs.foldl (fun m r => min m r.heartRate) a) := by
  induction xs generalizing a with
  | nil => rfl
  | cons r rs ih => simp [nightMinStep, ih]

lemma fallbackResting_min (s : DailyHRSummary) :
    (fallbackResting s).min = s.min := by
  cases h : s.resting <;> simp [fallbackResting, h]

lemma fallbackResting_max (s : DailyHRSummary) :
    (fallbackResting s).max = s.max := by
  cases h : s.resting <;> simp [fallbackResting, h]

lemma fallbackResting_avg (s : DailyHRSummary) :
    (fallbackResting s).avg = s.avg := by
  cases h : s.resting <;> simp [fallbackResting, h]

lemma fallbackResting_of_none (s : DailyHRSummary) (h : s.resting = none) :
    (fallbackResting s).resting = some s.min := by
  simp [fallbackResting, h]

lemma fallbackResting_of_some (s : DailyHRSummary) (q : ℚ) (h : s.resting = some q) :
    fallbackResting s = s := by
  simp [fallbackResting, h]

/-- Decomposition of a summary produced by `buildDailyHRSummary`: the
records of its date form a nonempty list `x :: xs`, and before the resting
fallback the fields are the corresponding folds over that list. -/
lemma buildDailyHRSummary_decomp (records : List HeartRateRecord) (d : String)
    (s : DailyHRSummary) (h : getA (buildDailyHRSummary records) d = some s) :
    ∃ x xs, records.filter (fun r => r.date = d) = x :: xs ∧
      ∃ s0, s = fallbackResting s0 ∧
        s0.min = xs.foldl (fun m r => min m r.heartRate) x.heartRate ∧
        s0.max = xs.foldl (fun m r => max m r.heartRate) x.heartRate ∧
        s0.avg = (x.heartRate + (xs.map (fun r => r.heartRate)).sum) /
          (1 + xs.length) ∧
        s0.resting = ((x :: xs).filter (fun r => isNightTime r.time)).foldl
          nightMinStep none := by
  rw [getA_buildDailyHRSummary] at h
  cases hl : records.filter (fun r => r.date = d) with
  | nil => rw [hl] at h; simp at h
  | cons x xs =>
      rw [hl] at h
      rw [List.foldl_cons, show processDay none x = some (initSummary x) from rfl,
        foldl_processDay_some, Option.map_some'] at h
      refine ⟨x, xs, rfl, xs.foldl updateSummary (initSummary x),
        (Option.some.inj h).symm, ?_, ?_, ?_, ?_⟩
      · rw [foldl_update_min]
        simp [initSummary]
      · rw [foldl_update_max]
        simp [initSummary]
      · rw [foldl_update_avg _ _ (by simp [initSummary])]
        simp [initSummary]
      · rw [foldl_update_resting]
        have hinit : (initSummary x).resting = restingStep none x := by
          by_cases hx : isNightTime x.time <;>
            simp [initSummary, restingStep, nightMinStep, hx]
        rw [hinit, show xs.foldl restingStep (restingStep none x) =
          (x :: xs).foldl restingStep none from rfl]
        rw [foldl_restingStep_filter]

/-- C8: for every record array and every date in the summary map built by
`buildDailyHRSummary`, if the date has no sample in the `[02:00, 05:00)`
window then resting equals the day's overall minimum heart rate; otherwise
resting is the minimum heart rate among the nocturnal samples. -/
theorem buildDailyHRSummary_resting_heuristic (records : List HeartRateRecord)
    (d : String) (s : DailyHRSummary)
    (h : getA (buildDailyHRSummary records) d = some s) :
    ((records.filter (fun r => r.date = d)).filter (fun r => isNightTime r.time) = [] →
      s.resting = some s.min ∧
      s.min ∈ (records.filter (fun r => r.date = d)).map (fun r => r.heartRate) ∧
      ∀ v ∈ (records.filter (fun r => r.date = d)).map (fun r => r.heartRate),
        s.min ≤ v) ∧
    ((records.filter (fun r => r.date = d)).filter (fun r => isNightTime r.time) ≠ [] →
      ∃ q, s.resting = some q ∧
        q ∈ ((records.filter (fun r => r.date = d)).filter
          (fun r => isNightTime r.time)).map (fun r => r.heartRate) ∧
        ∀ v ∈ ((records.filter (fun r => r.date = d)).filter
          (fun r => isNightTime r.time)).map (fun r => r.heartRate), q ≤ v) := by
  obtain ⟨x, xs, hl, s0, hs, hmin, hmax, havg, hrest⟩ :=
    buildDailyHRSummary_decomp records d s h
  rw [hl]
  constructor
  · intro hn
    rw [hn] at hrest
    have hrest0 : s0.resting = none := hrest
    have hsrest : s.resting = some s0.min := by
      rw [hs]
      exact fallbackResting_of_none s0 hrest0
    have hsmin : s.min = s0.min := by rw [hs, fallbackResting_min]
    refine ⟨by rw [hsrest, hsmin], ?_, ?_⟩
    · rw [hsmin, hmin]
      rcases foldl_min_eq_init_or_mem xs x.heartRate with he | ⟨r, hr, he⟩
      · rw [he]
        exact List.mem_map_of_mem _ (List.mem_cons_self x xs)
      · rw [he]
        exact List.mem_map_of_mem _ (List.mem_cons_of_mem _ hr)
    · intro v hv
      obtain ⟨r, hr, hv⟩ := List.mem_map.mp hv
      rw [hsmin, hmin, ← hv]
      exact foldl_min_le_of_mem_cons x xs hr
  · intro hn
    cases hnoct : (x :: xs).filter (fun r => isNightTime r.time) with
    | nil => exact absurd hnoct hn
    | cons y ys =>
        rw [hnoct] at hrest
        rw [List.foldl_cons, show nightMinStep none y = some y.heartRate from rfl,
          foldl_nightMinStep_some] at hrest
        have hfb : s = s0 := by rw [hs]; exact fallbackResting_of_some s0 _ hrest
        refine ⟨ys.foldl (fun m r => min m r.heartRate) y.heartRate,
          by rw [hfb, hrest], ?_, ?_⟩
        · rcases foldl_min_eq_init_or_mem ys y.heartRate with he | ⟨r, hr, he⟩
          · rw [he]
            exact List.mem_map_of_mem _ (List.mem_cons_self y ys)
          · rw [he]
            exact List.mem_map_of_mem _ (List.mem_cons_of_mem _ hr)
        · intro v hv
          obtain ⟨r, hr, hv⟩ := List.mem_map.mp hv
          rw [← hv]
          exact foldl_min_le_of_mem_cons y ys hr

/-- Witness for C8: a single daytime sample, so the fallback branch fires
and resting equals the day's minimum. -/
theorem buildDailyHRSummary_resting_heuristic_witness :
    (getA (buildDailyHRSummary [⟨"2025-06-01", "12:00", 80⟩]) "2025-06-01" =
        some ⟨"2025-06-01", 80, 80, 80, some 80, 1⟩) ∧
      ((([⟨"2025-06-01", "12:00", 80⟩] : List HeartRateRecord).filter
          (fun r => r.date = "2025-06-01")).filter (fun r => isNightTime r.time) = [] →
        (⟨"2025-06-01", 80, 80, 80, some 80, 1⟩ : DailyHRSummary).resting =
          some (⟨"2025-06-01", 80, 80, 80, some 80, 1⟩ : DailyHRSummary).min ∧
        (⟨"2025-06-01", 80, 80, 80, some 80, 1⟩ : DailyHRSummary).min ∈
          (([⟨"2025-06-01", "12:00", 80⟩] : List HeartRateRecord).filter
            (fun r => r.date = "2025-06-01")).map (fun r => r.heartRate) ∧
        ∀ v ∈ (([⟨"2025-06-01", "12:00", 80⟩] : List HeartRateRecord).filter
            (fun r => r.date = "2025-06-01")).map (fun r => r.heartRate),
          (⟨"2025-06-01", 80, 80, 80, some 80, 1⟩ : DailyHRSummary).min ≤ v) :=
  ⟨rfl, (buildDailyHRSummary_resting_heuristic [⟨"2025-06-01", "12:00", 80⟩]
    "2025-06-01" ⟨"2025-06-01", 80, 80, 80, some 80, 1⟩ rfl).1⟩

/-- C9: every summary produced by `buildDailyHRSummary` satisfies
`min ≤ avg ≤ max`, and its resting value is a number between min and max. -/
theorem buildDailyHRSummary_bounds (records : List HeartRateRecord)
    (d : String) (s : DailyHRSummary)
    (h : getA (buildDailyHRSummary records) d = some s) :
    s.min ≤ s.avg ∧ s.avg ≤ s.max ∧
      ∃ q, s.resting = some q ∧ s.min ≤ q ∧ q ≤ s.max := by
  obtain ⟨x, xs, hl, s0, hs, hmin, hmax, havg, hrest⟩ :=
    buildDailyHRSummary_decomp records d s h
  have hsmin : s.min = s0.min := by rw [hs, fallbackResting_min]
  have hsmax : s.max = s0.max := by rw [hs, fallbackResting_max]
  have hsavg : s.avg = s0.avg := by rw [hs, fallbackResting_avg]
  have hn : (0 : ℚ) < 1 + xs.length := by positivity
  have hsum : ((x :: xs).map (fun r => r.heartRate)).sum =
      x.heartRate + (xs.map (fun r => r.heartRate)).sum := by simp
  have hlen : (((x :: xs).map (fun r => r.heartRate)).length : ℚ) =
      1 + xs.length := by
    simp [List.length_map]
    ring
  have hlb : ∀ v ∈ (x :: xs).map (fun r => r.heartRate), s0.min ≤ v := by
    intro v hv
    obtain ⟨r, hr, hv⟩ := List.mem_map.mp hv
    rw [hmin, ← hv]
    exact foldl_min_le_of_mem_cons x xs hr
  have hub : ∀ v ∈ (x :: xs).map (fun r => r.heartRate), v ≤ s0.max := by
    intro v hv
    obtain ⟨r, hr, hv⟩ := List.mem_map.mp hv
    rw [hmax, ← hv]
    exact le_foldl_max_of_mem_cons x xs hr
  have hminmax : s0.min ≤ s0.max := by
    rw [hmin, hmax]
    calc xs.foldl (fun m r => min m r.heartRate) x.heartRate ≤ x.heartRate :=
          foldl_min_le_init _ _
      _ ≤ xs.foldl (fun m r => max m r.heartRate) x.heartRate :=
          le_foldl_max_init _ _
  have havg_lb : s0.min ≤ s0.avg := by
    rw [havg, le_div_iff hn]
    have := length_mul_le_sum ((x :: xs).map (fun r => r.heartRate)) s0.min hlb
    rw [hlen, hsum] at this
    linarith
  have havg_ub : s0.avg ≤ s0.max := by
    rw [havg, div_le_iff hn]
    have := sum_le_length_mul ((x :: xs).map (fun r => r.heartRate)) s0.max hub
    rw [hlen, hsum] at this
    linarith
  refine ⟨by rw [hsmin, hsavg]; exact havg_lb,
    by rw [hsavg, hsmax]; exact havg_ub, ?_⟩
  cases hnoct : (x :: xs).filter (fun r => isNightTime r.time) with
  | nil =>
      rw [hnoct] at hrest
      have hrest0 : s0.resting = none := hrest
      refine ⟨s0.min, ?_, le_of_eq hsmin, by rw [hsmax]; exact hminmax⟩
      rw [hs]
      exact fallbackResting_of_none s0 hrest0
  | cons y ys =>
      rw [hnoct] at hrest
      rw [List.foldl_cons, show nightMinStep none y = some y.heartRate from rfl,
        foldl_nightMinStep_some] at hrest
      have hfb : s = s0 := by rw [hs]; exact fallbackResting_of_some s0 _ hrest
      refine ⟨ys.foldl (fun m r => min m r.heartRate) y.heartRate,
        by rw [hfb, hrest], ?_, ?_⟩
      · rcases foldl_min_eq_init_or_mem ys y.heartRate with he | ⟨r, hr, he⟩
        · rw [hfb, he]
          have hy : y ∈ (x :: xs).filter (fun r => isNightTime r.time) := by
            rw [hnoct]; exact List.mem_cons_self y ys
          exact hlb _ (List.mem_map_of_mem _ (List.mem_of_mem_filter hy))
        · rw [hfb, he]
          have hr' : r ∈ (x :: xs).filter (fun r => isNightTime r.time) := by
            rw [hnoct]; exact List.mem_cons_of_mem _ hr
          exact hlb _ (List.mem_map_of_mem _ (List.mem_of_mem_filter hr'))
      · rcases foldl_min_eq_init_or_mem ys y.heartRate with he | ⟨r, hr, he⟩
        · rw [hfb, he]
          have hy : y ∈ (x :: xs).filter (fun r => isNightTime r.time) := by
            rw [hnoct]; exact List.mem_cons_self y ys
          exact hub _ (List.mem_map_of_mem _ (List.mem_of_mem_filter hy))
        · rw [hfb, he]
          have hr' : r ∈ (x :: xs).filter (fun r => isNightTime r.time) := by
            rw [hnoct]; exact List.mem_cons_of_mem _ hr
          exact hub _ (List.mem_map_of_mem _ (List.mem_of_mem_filter hr'))

/-- Witness for C9: a single nocturnal sample. -/
theorem buildDailyHRSummary_bounds_witness :
    (getA (buildDailyHRSummary [⟨"2025-06-03", "04:00", 72⟩]) "2025-06-03" =
        some ⟨"2025-06-03", 72, 72, 72, some 72, 1⟩) ∧
      ((⟨"2025-06-03", 72, 72, 72, some 72, 1⟩ : DailyHRSummary).min ≤
          (⟨"2025-06-03", 72, 72, 72, some 72, 1⟩ : DailyHRSummary).avg ∧
        (⟨"2025-06-03", 72, 72, 72, some 72, 1⟩ : DailyHRSummary).avg ≤
          (⟨"2025-06-03", 72, 72, 72, some 72, 1⟩ : DailyHRSummary).max ∧
        ∃ q, (⟨"2025-06-03", 72, 72, 72, some 72, 1⟩ : DailyHRSummary).resting = some q ∧
          (⟨"2025-06-03", 72, 72, 72, some 72, 1⟩ : DailyHRSummary).min ≤ q ∧
          q ≤ (⟨"2025-06-03", 72, 72, 72, some 72, 1⟩ : DailyHRSummary).max) :=
  ⟨rfl, buildDailyHRSummary_bounds [⟨"2025-06-03", "04:00", 72⟩] "2025-06-03"
    ⟨"2025-06-03", 72, 72, 72, some 72, 1⟩ rfl⟩

end Helios
